import Mathlib

/-!
Shallow embedding of the product-feed synchronisation program
(ftpClient.js, shopifyClient.js, index.js): the FTP transfer manager's
latest-file selection and backup/restore download, the reconciliation
comparator and minimal-patch builder, the batch dispatcher, the handle
generator, and the cron job's re-entrancy guard.  Machine operations on
JavaScript numbers are modelled over Nat / Int / ℚ; fallible operations
return Except; asynchronous network calls are oracle parameters so that
every definition is a pure function of its inputs.
-/

namespace ShopifySync

/-! ## Batch dispatcher (shopifyClient.js: processProductsFromCSV,
processBatchParallelWithUpdates, processBatchSequentialWithUpdates,
processCreateItem, processUpdateItem) -/

/-- Action assigned when categorizing CSV items: a changeset item is either
a create or an update (source: processProductsFromCSV, lines 791-794). -/
inductive PAction
  | create
  | update
deriving DecidableEq, Repr

/-- Result tag attached by processCreateItem / processUpdateItem (source
lines 1067-1093): a real write is tagged created / updated, a dry run is
tagged with a distinct dry-run tag. -/
inductive RType
  | created
  | updated
  | dryRunCreate
  | dryRunUpdate
deriving DecidableEq, Repr

/-- One changeset item handed to the dispatcher: its action, the
identifier recorded on failure (csvItem.Item), and the outcome the remote
catalog API gives if the network call is made (ok, or the thrown error
message).  The network outcome is an oracle parameter: the dispatcher is a
pure function of it. -/
structure DispatchItem where
  action : PAction
  ident : String
  net : Except String Unit
deriving Repr

/-- The aggregated result report (source lines 740-749).  The
createdProducts / updatedProducts payload lists are omitted; errorDetails
keeps the (identifier, message) pairs the source pushes. -/
structure Results where
  total : Nat
  created : Nat
  updated : Nat
  skipped : Nat
  errors : Nat
  errorDetails : List (String × String)
deriving DecidableEq, Repr

/-- processCreateItem (source lines 1067-1078): on dry run return a
success tagged dry-run-create without touching the network; otherwise the
create call either succeeds (tag created) or throws. -/
def processCreateItem (dryRun : Bool) (it : DispatchItem) : Except String RType :=
  if dryRun then .ok .dryRunCreate
  else
    match it.net with
    | .ok _ => .ok .created
    | .error e => .error e

/-- processUpdateItem (source lines 1081-1093): dry run returns a success
tagged dry-run-update without a network call; otherwise the update call
either succeeds (tag updated) or throws. -/
def processUpdateItem (dryRun : Bool) (it : DispatchItem) : Except String RType :=
  if dryRun then .ok .dryRunUpdate
  else
    match it.net with
    | .ok _ => .ok .updated
    | .error e => .error e

/-- Per-item processing selected on the item's action (source lines
971-975 and 1035-1039). -/
def processItem (dryRun : Bool) (it : DispatchItem) : Except String RType :=
  match it.action with
  | .create => processCreateItem dryRun it
  | .update => processUpdateItem dryRun it

/-- Per-item accounting shared by the parallel result loop (source lines
996-1025) and the sequential loop (source lines 1041-1060): a success
tagged created or updated increments the matching counter, any other
success tag is not counted, and a failure increments errors and appends
the (identifier, message) pair.  skipped and total are never touched. -/
def recordItem (r : Results) (it : DispatchItem) (out : Except String RType) : Results :=
  match out with
  | .ok t =>
    match t with
    | .created => { r with created := r.created + 1 }
    | .updated => { r with updated := r.updated + 1 }
    | _ => r
  | .error e =>
    { r with errors := r.errors + 1, errorDetails := r.errorDetails ++ [(it.ident, e)] }

/-- processBatchParallelWithUpdates (source lines 968-1028):
Promise.allSettled is modelled as mapping every item independently to its
settled outcome — the inner try/catch makes each promise fulfil with
either a success value or a failure record, so each item's outcome is a
function of that item alone — then the result loop accounts every settled
outcome with recordItem. -/
def processBatchParallelWithUpdates (batch : List DispatchItem) (r : Results)
    (dryRun : Bool) : Results :=
  ((batch.map fun it => (it, processItem dryRun it)).foldl
    fun acc p => recordItem acc p.1 p.2) r

/-- processBatchSequentialWithUpdates (source lines 1031-1064): items are
processed strictly one after another (with an inter-item pacing delay we
do not model), a thrown error is caught per item and accounted without
aborting the loop. -/
def processBatchSequentialWithUpdates (batch : List DispatchItem) (r : Results)
    (dryRun : Bool) : Results :=
  batch.foldl (fun acc it => recordItem acc it (processItem dryRun it)) r

/-- Fuel-indexed batching loop.  The source iterates
`for (i = 0; i < length; i += batchSize)` slicing `batchSize` items at a
time (lines 797-798); the fuel (instantiated with the list length) only
makes the recursion structural.  A batchSize of 0 would not terminate in
the source; the model returns no batches in that case. -/
def chunksGo (fuel : Nat) (B : Nat) (l : List DispatchItem) : List (List DispatchItem) :=
  match fuel with
  | 0 => []
  | fuel + 1 =>
    if B = 0 then []
    else if l.isEmpty then []
    else l.take B :: chunksGo fuel B (l.drop B)

/-- Partition of the changeset into consecutive batches of size B (source
lines 797-798). -/
def chunks (B : Nat) (l : List DispatchItem) : List (List DispatchItem) :=
  chunksGo l.length B l

/-- Dispatcher configuration (the relevant options of
processProductsFromCSV, source lines 723-729). -/
structure DispatchConfig where
  batchSize : Nat
  dryRun : Bool
  parallelBatch : Bool
deriving DecidableEq, Repr

/-- The dispatch portion of processProductsFromCSV (source lines 740-817):
initialise the result report with total = item count and zero counters,
then process each consecutive batch, in parallel only when parallelBatch
is set and this is not a dry run (source line 804), sequentially
otherwise. -/
def dispatchChangeset (items : List DispatchItem) (cfg : DispatchConfig) : Results :=
  let start : Results :=
    { total := items.length, created := 0, updated := 0, skipped := 0,
      errors := 0, errorDetails := [] }
  (chunks cfg.batchSize items).foldl
    (fun r batch =>
      if cfg.parallelBatch && !cfg.dryRun then
        processBatchParallelWithUpdates batch r cfg.dryRun
      else
        processBatchSequentialWithUpdates batch r cfg.dryRun)
    start

/-! ### Dispatcher lemmas -/

theorem chunksGo_nil (fuel B : Nat) : chunksGo fuel B [] = [] := by
  cases fuel <;> simp [chunksGo]

theorem length_drop_le_of_le (a : DispatchItem) (t : List DispatchItem) (B n : Nat)
    (hB : 0 < B) (hl : (a :: t).length ≤ n + 1) : ((a :: t).drop B).length ≤ n := by
  rw [List.length_drop]
  simp only [List.length_cons] at hl ⊢
  omega

theorem chunksGo_congr (B : Nat) (hB : 0 < B) :
    ∀ fuel fuel' (l : List DispatchItem), l.length ≤ fuel → l.length ≤ fuel' →
      chunksGo fuel B l = chunksGo fuel' B l := by
  intro fuel
  induction fuel with
  | zero =>
    intro fuel' l hl _
    have : l = [] := List.eq_nil_of_length_eq_zero (Nat.le_zero.mp hl)
    subst this
    simp [chunksGo_nil]
  | succ n ih =>
    intro fuel' l hl hl'
    cases l with
    | nil => simp [chunksGo_nil]
    | cons a t =>
      cases fuel' with
      | zero => simp at hl'
      | succ m =>
        simp only [chunksGo, if_neg (Nat.pos_iff_ne_zero.mp hB), List.isEmpty_cons,
          Bool.false_eq_true, if_false]
        rw [ih m _ (length_drop_le_of_le a t B n hB hl) (length_drop_le_of_le a t B m hB hl')]

theorem chunks_cons (B : Nat) (hB : 0 < B) (l : List DispatchItem) (hl : l ≠ []) :
    chunks B l = l.take B :: chunks B (l.drop B) := by
  cases l with
  | nil => exact absurd rfl hl
  | cons a t =>
    show chunksGo (a :: t).length B (a :: t) = _
    simp only [List.length_cons, chunksGo, if_neg (Nat.pos_iff_ne_zero.mp hB),
      List.isEmpty_cons, Bool.false_eq_true, if_false]
    refine congrArg (_ :: ·) ?_
    exact chunksGo_congr B hB t.length ((a :: t).drop B).length _
      (length_drop_le_of_le a t B t.length hB (by simp)) (le_refl _)

theorem chunks_flatten (B : Nat) (hB : 0 < B) :
    ∀ fuel (l : List DispatchItem), l.length ≤ fuel → (chunksGo fuel B l).flatten = l := by
  intro fuel
  induction fuel with
  | zero =>
    intro l hl
    have : l = [] := List.eq_nil_of_length_eq_zero (Nat.le_zero.mp hl)
    subst this
    simp [chunksGo_nil]
  | succ n ih =>
    intro l hl
    cases l with
    | nil => simp [chunksGo_nil]
    | cons a t =>
      simp only [chunksGo, if_neg (Nat.pos_iff_ne_zero.mp hB), List.isEmpty_cons,
        Bool.false_eq_true, if_false, List.flatten_cons]
      rw [ih ((a :: t).drop B) (length_drop_le_of_le a t B n hB hl)]
      exact List.take_append_drop B (a :: t)

theorem chunks_length_eq (B : Nat) (hB : 0 < B) :
    ∀ fuel (l : List DispatchItem), l.length ≤ fuel →
      (chunksGo fuel B l).length = (l.length + B - 1) / B := by
  intro fuel
  induction fuel with
  | zero =>
    intro l hl
    have : l = [] := List.eq_nil_of_length_eq_zero (Nat.le_zero.mp hl)
    subst this
    simp only [chunksGo_nil, List.length_nil]
    rw [Nat.div_eq_of_lt (by omega)]
  | succ n ih =>
    intro l hl
    cases l with
    | nil =>
      simp only [chunksGo_nil, List.length_nil]
      rw [Nat.div_eq_of_lt (by omega)]
    | cons a t =>
      simp only [chunksGo, if_neg (Nat.pos_iff_ne_zero.mp hB), List.isEmpty_cons,
        Bool.false_eq_true, if_false, List.length_cons]
      rw [ih ((a :: t).drop B) (length_drop_le_of_le a t B n hB hl)]
      rw [List.length_drop]
      simp only [List.length_cons]
      rcases Nat.lt_or_ge (t.length + 1) B with h | h
      · have h1 : t.length + 1 - B = 0 := by omega
        rw [h1]
        rw [Nat.div_eq_of_lt (by omega)]
        have h2 : t.length + 1 + B - 1 = (t.length + 1 - 1) + B := by omega
        rw [h2, Nat.add_div_right _ hB, Nat.div_eq_of_lt (by omega)]
      · have h1 : t.length + 1 - B + B - 1 = t.length + 1 - 1 := by omega
        have h2 : t.length + 1 + B - 1 = (t.length + 1 - 1) + B := by omega
        rw [h1, h2, Nat.add_div_right _ hB]

/-- Item classifier: a create whose network call succeeds. -/
def isOkCreate (it : DispatchItem) : Bool :=
  match it.action, it.net with
  | .create, .ok _ => true
  | _, _ => false

/-- Item classifier: an update whose network call succeeds. -/
def isOkUpdate (it : DispatchItem) : Bool :=
  match it.action, it.net with
  | .update, .ok _ => true
  | _, _ => false

/-- The (identifier, message) error entry an item contributes when its
network call throws, none when it succeeds. -/
def failEntry (it : DispatchItem) : Option (String × String) :=
  match it.net with
  | .error e => some (it.ident, e)
  | .ok _ => none

theorem parallel_eq_sequential (batch : List DispatchItem) (r : Results) (d : Bool) :
    processBatchParallelWithUpdates batch r d = processBatchSequentialWithUpdates batch r d := by
  induction batch generalizing r with
  | nil => rfl
  | cons it rest ih =>
    simp only [processBatchParallelWithUpdates, processBatchSequentialWithUpdates,
      List.map_cons, List.foldl_cons] at *
    exact ih (recordItem r it (processItem d it))

theorem seqFold_spec : ∀ (batch : List DispatchItem) (r : Results),
    processBatchSequentialWithUpdates batch r false =
      { total := r.total,
        created := r.created + (batch.filter isOkCreate).length,
        updated := r.updated + (batch.filter isOkUpdate).length,
        skipped := r.skipped,
        errors := r.errors + (batch.filterMap failEntry).length,
        errorDetails := r.errorDetails ++ batch.filterMap failEntry } := by
  intro batch
  induction batch with
  | nil => intro r; simp [processBatchSequentialWithUpdates]
  | cons it rest ih =>
    intro r
    simp only [processBatchSequentialWithUpdates, List.foldl_cons] at *
    rw [ih]
    cases ha : it.action <;> rcases hn : it.net with u | e <;>
      simp_all [recordItem, processItem, processCreateItem, processUpdateItem,
        isOkCreate, isOkUpdate, failEntry, List.filter_cons, List.filterMap_cons,
        Results.mk.injEq, Nat.add_assoc] <;>
      omega

theorem item_partition : ∀ (batch : List DispatchItem),
    (batch.filter isOkCreate).length + (batch.filter isOkUpdate).length
      + (batch.filterMap failEntry).length = batch.length := by
  intro batch
  induction batch with
  | nil => rfl
  | cons it rest ih =>
    cases ha : it.action <;> rcases hn : it.net with u | e <;>
      simp_all [isOkCreate, isOkUpdate, failEntry, List.filter_cons, List.filterMap_cons] <;>
      omega

/-- Sum of the four counters of a result report. -/
def sumCounts (r : Results) : Nat :=
  r.created + r.updated + r.skipped + r.errors

theorem foldBatches_sumCounts : ∀ (bs : List (List DispatchItem)) (r : Results),
    sumCounts (bs.foldl (fun acc b => processBatchSequentialWithUpdates b acc false) r)
      = sumCounts r + (bs.map List.length).sum := by
  intro bs
  induction bs with
  | nil => intro r; simp
  | cons b rest ih =>
    intro r
    simp only [List.foldl_cons, List.map_cons, List.sum_cons]
    rw [ih, seqFold_spec]
    simp only [sumCounts]
    have := item_partition b
    omega

theorem dispatch_step_eq (cfg : DispatchConfig) (r : Results) (batch : List DispatchItem) :
    (if cfg.parallelBatch && !cfg.dryRun then
        processBatchParallelWithUpdates batch r cfg.dryRun
      else processBatchSequentialWithUpdates batch r cfg.dryRun)
      = processBatchSequentialWithUpdates batch r cfg.dryRun := by
  split
  · exact parallel_eq_sequential batch r cfg.dryRun
  · rfl

/-- C1: for a changeset of N items dispatched with batch size B > 0 in a
run where every item operation is actually issued and either succeeds or
fails (dryRun = false), the dispatcher executes exactly ceil(N/B)
consecutive batches, and afterwards the aggregated counts satisfy
created + updated + skipped + errors = N — every item is accounted for
exactly once whether its network call succeeded or failed. -/
theorem dispatch_batch_count_and_accounting (items : List DispatchItem)
    (cfg : DispatchConfig) (hB : 0 < cfg.batchSize) (hd : cfg.dryRun = false) :
    (chunks cfg.batchSize items).length
        = (items.length + cfg.batchSize - 1) / cfg.batchSize
      ∧ sumCounts (dispatchChangeset items cfg) = items.length := by
  constructor
  · exact chunks_length_eq cfg.batchSize hB items.length items (le_refl _)
  · have hflat : (chunks cfg.batchSize items).flatten = items :=
      chunks_flatten cfg.batchSize hB items.length items (le_refl _)
    have hsum : ((chunks cfg.batchSize items).map List.length).sum = items.length := by
      rw [← List.length_flatten, hflat]
    simp only [dispatchChangeset]
    rw [List.foldl_ext _ (fun r batch => processBatchSequentialWithUpdates batch r cfg.dryRun)
      _ (fun r b _ => dispatch_step_eq cfg r b), hd]
    rw [foldBatches_sumCounts]
    simp [sumCounts, hsum]

/-- Concrete changeset used to instantiate the C1 theorem: five items,
with a mix of creates, updates, successes and network failures. -/
def w1Items : List DispatchItem :=
  [⟨.create, "a", .ok ()⟩, ⟨.create, "b", .error "429 too many requests"⟩,
   ⟨.update, "c", .ok ()⟩, ⟨.update, "d", .error "500"⟩, ⟨.create, "e", .ok ()⟩]

theorem dispatch_batch_count_and_accounting_witness :
    (chunks 2 w1Items).length = (w1Items.length + 2 - 1) / 2
      ∧ sumCounts (dispatchChangeset w1Items ⟨2, false, true⟩) = w1Items.length :=
  dispatch_batch_count_and_accounting w1Items ⟨2, false, true⟩ (by decide) rfl

/-- C4: in the parallel path (taken for a batch when the parallel flag is
set and the run is not dry), every item settles independently and the
aggregate is a pointwise sum of per-item outcomes: created counts exactly
the successful creates, updated the successful updates, each failing item
adds exactly one to errors and appends exactly one (identifier, message)
entry — so one item's thrown or rejected error never aborts its siblings
(all other items are still accounted) and no item is retried (a failure
contributes exactly one error entry). -/
theorem parallel_batch_failure_isolation (batch : List DispatchItem) (r : Results) :
    (processBatchParallelWithUpdates batch r false).created
        = r.created + (batch.filter isOkCreate).length
      ∧ (processBatchParallelWithUpdates batch r false).updated
        = r.updated + (batch.filter isOkUpdate).length
      ∧ (processBatchParallelWithUpdates batch r false).errors
        = r.errors + (batch.filterMap failEntry).length
      ∧ (processBatchParallelWithUpdates batch r false).errorDetails
        = r.errorDetails ++ batch.filterMap failEntry
      ∧ (processBatchParallelWithUpdates batch r false).skipped = r.skipped
      ∧ (processBatchParallelWithUpdates batch r false).total = r.total := by
  rw [parallel_eq_sequential, seqFold_spec]
  exact ⟨rfl, rfl, rfl, rfl, rfl, rfl⟩

/-- Dry-run changeset of the C3 scenario: 5 create-eligible and 3
update-eligible items whose network calls would succeed. -/
def c3Items : List DispatchItem :=
  List.replicate 5 ⟨.create, "new-sku", .ok ()⟩
    ++ List.replicate 3 ⟨.update, "old-sku", .ok ()⟩

/-- The same changeset with every network call failing: under dryRun the
dispatcher must behave identically since no network call is made. -/
def c3ItemsNetDown : List DispatchItem :=
  List.replicate 5 ⟨.create, "new-sku", .error "network unreachable"⟩
    ++ List.replicate 3 ⟨.update, "old-sku", .error "network unreachable"⟩

/-- C3, evaluated at the spec's own scenario (5 create-eligible and 3
update-eligible items, dryRun = true): the per-item results are tagged
distinctly (dry-run-create / dry-run-update) and no network call is made
(the dispatch result does not depend on the network oracle), but the
aggregated report counts 0 created and 0 updated — not 5 and 3 — because
the result loops only count the tags created / updated and silently drop
the dry-run tags.  The would-be writes are therefore not recorded in the
BatchResult, contradicting the claim. -/
theorem dry_run_items_not_counted :
    processCreateItem true ⟨.create, "new-sku", .ok ()⟩ = .ok .dryRunCreate
      ∧ processUpdateItem true ⟨.update, "old-sku", .ok ()⟩ = .ok .dryRunUpdate
      ∧ dispatchChangeset c3Items ⟨10, true, true⟩
          = dispatchChangeset c3ItemsNetDown ⟨10, true, true⟩
      ∧ (dispatchChangeset c3Items ⟨10, true, true⟩).created = 0
      ∧ (dispatchChangeset c3Items ⟨10, true, true⟩).updated = 0
      ∧ (dispatchChangeset c3Items ⟨10, true, true⟩).errors = 0
      ∧ (dispatchChangeset c3Items ⟨10, true, true⟩).total = 8 :=
  ⟨rfl, rfl, by decide, by decide, by decide, by decide, by decide⟩

/-! ## Reconciliation comparator and minimal-patch builder
(shopifyClient.js: doesProductNeedUpdate, buildUpdateData).  The source
comparator takes a raw csvItem and first maps it through
mapCSVToShopifyProduct; the embedding takes the mapped product data
(csvProductData) directly.  JavaScript decimal strings are parsed with a
model of parseFloat restricted to plain decimal literals — exactly the
shape parsePrice emits and Shopify returns — with an unparseable string
modelled as none (NaN), and a strict-inequality comparison involving NaN
is true, as in JavaScript. -/

/-- Decimal digit test (0-9). -/
def isDigitC (c : Char) : Bool := 48 ≤ c.toNat && c.toNat ≤ 57

/-- Numeric value of a digit run. -/
def digitsNat (l : List Char) : Nat :=
  l.foldl (fun a c => 10 * a + (c.toNat - 48)) 0

/-- An exact decimal value num / 10 ^ scale, the result of parsing a
decimal literal. -/
structure DecVal where
  num : Int
  scale : Nat
deriving DecidableEq, Repr

/-- The rational value denoted by a parsed decimal. -/
def valQ (v : DecVal) : ℚ := (v.num : ℚ) / (10 : ℚ) ^ v.scale

/-- Numeric equality of two parsed decimals by cross-multiplication
(exact, no rounding). -/
def decEqVal (a b : DecVal) : Bool :=
  a.num * (10 : Int) ^ b.scale == b.num * (10 : Int) ^ a.scale

/-- Model of JavaScript parseFloat on plain decimal literals: optional
minus sign, integer digits, optional dot and fraction digits, at least one
digit in total, nothing else; any other string yields none (NaN).  This is
exactly the shape of the price strings the program compares: parsePrice
always emits d.dd and Shopify returns plain decimal strings. -/
def parseFloatD (s : String) : Option DecVal :=
  let (neg, l) :=
    match s.data with
    | '-' :: t => (true, t)
    | t => (false, t)
  let ds := l.takeWhile isDigitC
  let r := l.dropWhile isDigitC
  let core : Option DecVal :=
    match r with
    | [] => if ds.isEmpty then none else some ⟨(digitsNat ds : Int), 0⟩
    | '.' :: fr =>
      let fs := fr.takeWhile isDigitC
      let r2 := fr.dropWhile isDigitC
      if r2.isEmpty then
        if ds.isEmpty && fs.isEmpty then none
        else some ⟨(digitsNat ds * 10 ^ fs.length + digitsNat fs : Nat), fs.length⟩
      else none
    | _ => none
  match core with
  | none => none
  | some v => some (if neg then ⟨-v.num, v.scale⟩ else v)

/-- JavaScript strict inequality (!==) on two parsed numbers: if either
side is NaN the comparison is true; otherwise numeric inequality. -/
def numsDiffer (a b : Option DecVal) : Bool :=
  match a, b with
  | some x, some y => !decEqVal x y
  | _, _ => true

theorem decEqVal_iff_valQ (a b : DecVal) : decEqVal a b = true ↔ valQ a = valQ b := by
  have h10a : ((10 : ℚ) ^ a.scale) ≠ 0 := pow_ne_zero _ (by norm_num)
  have h10b : ((10 : ℚ) ^ b.scale) ≠ 0 := pow_ne_zero _ (by norm_num)
  simp only [decEqVal, beq_iff_eq, valQ]
  rw [div_eq_div_iff h10a h10b]
  constructor
  · intro h
    exact_mod_cast congrArg (fun n : ℤ => (n : ℚ)) h
  · intro h
    exact_mod_cast h

/-- JavaScript `value || 0` on an optional price string: a missing or
empty string falls back to the number 0 (parsed from "0"). -/
def jsOrZero (o : Option String) : String :=
  match o with
  | none => "0"
  | some t => if t = "" then "0" else t

/-- The single variant of the mapped CSV product (output of
createVariant): price is the parsePrice output, compare_at_price is null
when the feed has no MSRP, inventory and weight are already parsed
integers. -/
structure CsvVariant where
  sku : String
  barcode : String
  price : String
  compare_at_price : Option String
  inventory_quantity : Int
  weight : Int
deriving DecidableEq, Repr

/-- A variant of an existing Shopify product, with its remote identifier;
fields Shopify may omit are optional. -/
structure ExistingVariant where
  id : Nat
  sku : String
  barcode : String
  price : String
  compare_at_price : Option String
  inventory_quantity : Option Int
  weight : Int
deriving DecidableEq, Repr

/-- The compared fields of the mapped CSV product (csvProductData).  Note
mapCSVToShopifyProduct sets `category`, never `product_category_id`, so in
the real program the product_category_id read by the comparator is always
undefined (modelled none); the field is kept general here. -/
structure CsvProduct where
  title : String
  body_html : String
  product_type : String
  tags : String
  status : String
  product_category_id : Option Int
  variants : List CsvVariant
  images : List String
deriving DecidableEq, Repr

/-- The compared fields of an existing Shopify product; images holds the
image src URLs. -/
structure ExistingProduct where
  id : Nat
  title : String
  body_html : String
  product_type : String
  tags : String
  status : String
  product_category_id : Option Int
  variants : List ExistingVariant
  images : List String
deriving DecidableEq, Repr

/-- Stable insertion of a string into a sorted list (ascending). -/
def insertStr (s : String) : List String → List String
  | [] => [s]
  | t :: ts => if s < t then s :: t :: ts else t :: insertStr s ts

/-- JavaScript Array.sort() on string arrays (default lexicographic
comparator), used by the image comparison. -/
def sortStr : List String → List String
  | [] => []
  | s :: ss => insertStr s (sortStr ss)

/-- Price comparison of the source (line 927):
parseFloat(csvVariant.price) !== parseFloat(existingVariant.price). -/
def priceChanged (cv : CsvVariant) (ev : ExistingVariant) : Bool :=
  numsDiffer (parseFloatD cv.price) (parseFloatD ev.price)

/-- Compare-at-price comparison of the source (lines 931-934): guarded by
the truthiness of csvVariant.compare_at_price (null or empty string
short-circuits to no change), against existingVariant.compare_at_price
defaulted to 0. -/
def comparePriceChanged (cv : CsvVariant) (ev : ExistingVariant) : Bool :=
  match cv.compare_at_price with
  | none => false
  | some s =>
    (s != "") && numsDiffer (parseFloatD s) (parseFloatD (jsOrZero ev.compare_at_price))

/-- Inventory comparison (line 936): parseInt on both sides, the existing
side defaulted to 0. -/
def inventoryChanged (cv : CsvVariant) (ev : ExistingVariant) : Bool :=
  cv.inventory_quantity != ev.inventory_quantity.getD 0

/-- SKU comparison (line 940). -/
def skuChanged (cv : CsvVariant) (ev : ExistingVariant) : Bool :=
  cv.sku != ev.sku

/-- Barcode comparison (line 944). -/
def barcodeChanged (cv : CsvVariant) (ev : ExistingVariant) : Bool :=
  cv.barcode != ev.barcode

/-- Weight comparison (line 948). -/
def weightChanged (cv : CsvVariant) (ev : ExistingVariant) : Bool :=
  cv.weight != ev.weight

/-- Category comparison (lines 917-919): guarded by the truthiness of the
csv side's product_category_id (undefined, null or 0 short-circuits). -/
def categoryChanged (P : CsvProduct) (E : ExistingProduct) : Bool :=
  match P.product_category_id with
  | none => false
  | some c => if c = 0 then false else some c != E.product_category_id

/-- Image comparison (lines 954-958): the two URL arrays are sorted and
compared, so order never counts as a change. -/
def imagesChanged (P : CsvProduct) (E : ExistingProduct) : Bool :=
  sortStr E.images != sortStr P.images

/-- doesProductNeedUpdate (source lines 887-965), applied to the mapped
csvProductData: returns the changes array in the exact push order of the
source.  Variant fields are compared only when the existing product has a
variant (source line 923); the csv side always has exactly one variant
(createVariant), which the model reflects by matching on the head. -/
def doesProductNeedUpdate (P : CsvProduct) (E : ExistingProduct) : List String :=
  (if P.title != E.title then ["title"] else [])
  ++ (if P.body_html != E.body_html then ["description"] else [])
  ++ (if P.product_type != E.product_type then ["product_type"] else [])
  ++ (if P.tags != E.tags then ["tags"] else [])
  ++ (if P.status != E.status then ["status"] else [])
  ++ (if categoryChanged P E then ["category"] else [])
  ++ (match E.variants, P.variants with
      | ev :: _, cv :: _ =>
        (if priceChanged cv ev then ["price"] else [])
        ++ (if comparePriceChanged cv ev then ["compare_price"] else [])
        ++ (if inventoryChanged cv ev then ["inventory"] else [])
        ++ (if skuChanged cv ev then ["sku"] else [])
        ++ (if barcodeChanged cv ev then ["barcode"] else [])
        ++ (if weightChanged cv ev then ["weight"] else [])
      | _, _ => [])
  ++ (if imagesChanged P E then ["images"] else [])

/-- The variant part of an update payload: the existing variant's id plus
the optionally set fields. -/
structure VariantPatch where
  id : Nat
  price : Option String
  compare_at_price : Option String
  inventory_quantity : Option Int
  sku : Option String
  barcode : Option String
  weight : Option Int
deriving DecidableEq, Repr

/-- The update payload built by buildUpdateData: the existing product's id
plus optionally set fields (none = field absent from the patch). -/
structure UpdateData where
  id : Nat
  title : Option String
  body_html : Option String
  product_type : Option String
  tags : Option String
  status : Option String
  product_category_id : Option Int
  images : Option (List String)
  variants : Option (List VariantPatch)
deriving DecidableEq, Repr

/-- The initial update payload: only the existing product's id (source
line 1097). -/
def emptyUpdate (E : ExistingProduct) : UpdateData :=
  { id := E.id, title := none, body_html := none, product_type := none,
    tags := none, status := none, product_category_id := none,
    images := none, variants := none }

/-- The six variant-level change names of the source's switch (lines
1122-1127). -/
def isVariantChange (c : String) : Bool :=
  c == "price" || c == "compare_price" || c == "inventory"
    || c == "sku" || c == "barcode" || c == "weight"

/-- One switch arm of buildUpdateData (source lines 1099-1148).  For a
variant-level change the source first initialises updateData.variants to
[] when unset, then — when the existing product has a variant — builds a
FRESH variant patch holding only this change's field and overwrites
updateData.variants with it (a null assignment, possible for
compare_at_price, is modelled like an absent field). -/
def applyChange (P : CsvProduct) (E : ExistingProduct) (u : UpdateData)
    (c : String) : UpdateData :=
  if c == "title" then { u with title := some P.title }
  else if c == "description" then { u with body_html := some P.body_html }
  else if c == "product_type" then { u with product_type := some P.product_type }
  else if c == "tags" then { u with tags := some P.tags }
  else if c == "status" then { u with status := some P.status }
  else if c == "category" then { u with product_category_id := P.product_category_id }
  else if c == "images" then { u with images := some P.images }
  else if isVariantChange c then
    let u1 :=
      match u.variants with
      | none => { u with variants := some [] }
      | some _ => u
    match E.variants, P.variants with
    | ev :: _, cv :: _ =>
      let vp : VariantPatch :=
        { id := ev.id,
          price := if c == "price" then some cv.price else none,
          compare_at_price := if c == "compare_price" then cv.compare_at_price else none,
          inventory_quantity := if c == "inventory" then some cv.inventory_quantity else none,
          sku := if c == "sku" then some cv.sku else none,
          barcode := if c == "barcode" then some cv.barcode else none,
          weight := if c == "weight" then some cv.weight else none }
      { u1 with variants := some [vp] }
    | _, _ => u1
  else u

/-- buildUpdateData (source lines 1096-1151): fold the switch over the
changes array starting from the id-only payload. -/
def buildUpdateData (P : CsvProduct) (E : ExistingProduct)
    (changes : List String) : UpdateData :=
  changes.foldl (applyChange P E) (emptyUpdate E)

/-! ### Comparator and patch-builder theorems -/

theorem mem_ite_nil_imp {α : Type} {p : Prop} [Decidable p] {l : List α} {a : α}
    (h : a ∈ (if p then l else [])) : a ∈ l := by
  split at h
  · exact h
  · simp at h

/-- Existing variant used by the concrete comparator instances: price
10.00, inventory 3. -/
def exVar2 : ExistingVariant :=
  { id := 44, sku := "SKU1", barcode := "B1", price := "10.00",
    compare_at_price := some "12.00", inventory_quantity := some 3, weight := 5 }

/-- Existing product used by the concrete comparator instances. -/
def exProd2 : ExistingProduct :=
  { id := 7, title := "Gold Ring", body_html := "<p>d</p>", product_type := "Rings",
    tags := "gold", status := "active", product_category_id := none,
    variants := [exVar2], images := ["u1"] }

/-- Incoming mapped product of the patch-merge counterexample: identical
to the existing product except price 11.00 and inventory 9, so both
variant-level fields change. -/
def csvProd2 : CsvProduct :=
  { title := "Gold Ring", body_html := "<p>d</p>", product_type := "Rings",
    tags := "gold", status := "active", product_category_id := none,
    variants := [{ sku := "SKU1", barcode := "B1", price := "11.00",
                   compare_at_price := some "12.00", inventory_quantity := 9,
                   weight := 5 }],
    images := ["u1"] }

/-- Incoming variant that differs from exVar2 only in inventory (9 vs 3). -/
def csvVar2inv : CsvVariant :=
  { sku := "SKU1", barcode := "B1", price := "10.00",
    compare_at_price := some "12.00", inventory_quantity := 9, weight := 5 }

/-- Incoming mapped product that differs from exProd2 only in inventory. -/
def csvProd2inv : CsvProduct :=
  { title := "Gold Ring", body_html := "<p>d</p>", product_type := "Rings",
    tags := "gold", status := "active", product_category_id := none,
    variants := [csvVar2inv], images := ["u1"] }

/-- C2 counterexample: when two variant-level fields change (price and
inventory), the changes array names both, but the built patch's variant
carries only the inventory field — the price assignment was overwritten
when the switch rebuilt a fresh variant patch for the later change — so
the patch does not contain all fields named in changedFields and the
variant fields are not merged into one patch. -/
theorem variant_patch_not_merged :
    doesProductNeedUpdate csvProd2 exProd2 = ["price", "inventory"]
      ∧ (buildUpdateData csvProd2 exProd2
            (doesProductNeedUpdate csvProd2 exProd2)).variants
          = some [{ id := 44, price := none, compare_at_price := none,
                    inventory_quantity := some 9, sku := none, barcode := none,
                    weight := none }] := by
  constructor
  · decide
  · decide

/-- C2 (amended): when only the inventory quantity differs — every other
compared field, product-level and variant-level, is unchanged — the
changes array is exactly the singleton inventory, and the built patch
contains nothing but the existing product's id and a single variant patch
keyed by the existing variant's id holding only the new inventory
quantity. -/
theorem inventory_only_minimal_patch
    (P : CsvProduct) (E : ExistingProduct) (cv : CsvVariant) (ev : ExistingVariant)
    (cvs : List CsvVariant) (evs : List ExistingVariant)
    (hPv : P.variants = cv :: cvs) (hEv : E.variants = ev :: evs)
    (ht : P.title = E.title) (hd : P.body_html = E.body_html)
    (hpt : P.product_type = E.product_type) (htg : P.tags = E.tags)
    (hst : P.status = E.status) (hcat : categoryChanged P E = false)
    (hpr : priceChanged cv ev = false) (hcp : comparePriceChanged cv ev = false)
    (hinv : inventoryChanged cv ev = true)
    (hsku : skuChanged cv ev = false) (hbar : barcodeChanged cv ev = false)
    (hw : weightChanged cv ev = false) (himg : imagesChanged P E = false) :
    doesProductNeedUpdate P E = ["inventory"]
      ∧ buildUpdateData P E (doesProductNeedUpdate P E)
          = { id := E.id, title := none, body_html := none, product_type := none,
              tags := none, status := none, product_category_id := none,
              images := none,
              variants := some [{ id := ev.id, price := none, compare_at_price := none,
                                  inventory_quantity := some cv.inventory_quantity,
                                  sku := none, barcode := none, weight := none }] } := by
  have hch : doesProductNeedUpdate P E = ["inventory"] := by
    simp [doesProductNeedUpdate, hPv, hEv, ht, hd, hpt, htg, hst, hcat, hpr, hcp,
      hinv, hsku, hbar, hw, himg]
  refine ⟨hch, ?_⟩
  rw [hch]
  simp [buildUpdateData, applyChange, emptyUpdate, isVariantChange, hPv, hEv]

/-- Closed instantiation of the amended C2 theorem at the concrete
products where only the inventory differs (3 versus 9). -/
theorem inventory_only_minimal_patch_witness :
    doesProductNeedUpdate csvProd2inv exProd2 = ["inventory"]
      ∧ buildUpdateData csvProd2inv exProd2 (doesProductNeedUpdate csvProd2inv exProd2)
          = { id := 7, title := none, body_html := none, product_type := none,
              tags := none, status := none, product_category_id := none,
              images := none,
              variants := some [{ id := 44, price := none, compare_at_price := none,
                                  inventory_quantity := some 9, sku := none,
                                  barcode := none, weight := none }] } :=
  inventory_only_minimal_patch csvProd2inv exProd2 csvVar2inv exVar2 [] []
    rfl rfl rfl rfl rfl rfl rfl (by decide) (by decide) (by decide) (by decide)
    (by decide) (by decide) (by decide) (by decide)

/-- C5 (amended): the comparator reports a price change exactly when the
parsed numeric values of the two price strings differ — prices are
compared as parsed numbers (parseFloat strict inequality), not at
2-decimal string rendering.  Consequently pure formatting differences
("10" vs "10.00") never produce a diff, but sub-cent value differences do,
even when the 2-decimal renderings agree. -/
theorem price_compared_as_parsed_value
    (P : CsvProduct) (E : ExistingProduct) (cv : CsvVariant) (ev : ExistingVariant)
    (cvs : List CsvVariant) (evs : List ExistingVariant)
    (hPv : P.variants = cv :: cvs) (hEv : E.variants = ev :: evs)
    (x y : DecVal) (hx : parseFloatD cv.price = some x)
    (hy : parseFloatD ev.price = some y) :
    "price" ∈ doesProductNeedUpdate P E ↔ valQ x ≠ valQ y := by
  have hpc : priceChanged cv ev = !decEqVal x y := by
    simp [priceChanged, numsDiffer, hx, hy]
  constructor
  · intro h heq
    have hdec : decEqVal x y = true := (decEqVal_iff_valQ x y).mpr heq
    have hfalse : priceChanged cv ev = false := by rw [hpc, hdec]; rfl
    simp only [doesProductNeedUpdate, hPv, hEv, List.mem_append] at h
    rcases h with
      ((((((h | h) | h) | h) | h) | h) | (((((h | h) | h) | h) | h) | h)) | h
    all_goals first
      | exact absurd (mem_ite_nil_imp h) (by decide)
      | (rw [hfalse] at h; simp at h)
  · intro hne
    have htrue : priceChanged cv ev = true := by
      rw [hpc]
      cases hdec : decEqVal x y with
      | true => exact absurd ((decEqVal_iff_valQ x y).mp hdec) hne
      | false => rfl
    simp only [doesProductNeedUpdate, hPv, hEv, List.mem_append]
    refine Or.inl (Or.inr (Or.inl (Or.inl (Or.inl (Or.inl (Or.inl ?_))))))
    rw [htrue]
    simp

/-- Existing variant of the C5 counterexample, with a sub-cent price. -/
def exVar5 : ExistingVariant :=
  { id := 9, sku := "S", barcode := "B", price := "10.004",
    compare_at_price := none, inventory_quantity := some 0, weight := 0 }

/-- Existing product of the C5 counterexample. -/
def exProd5 : ExistingProduct :=
  { id := 3, title := "T", body_html := "D", product_type := "Rings", tags := "",
    status := "active", product_category_id := none, variants := [exVar5],
    images := [] }

/-- Incoming mapped product of the C5 counterexample: price 10.00, all
other compared fields equal to the existing product's. -/
def csvProd5 : CsvProduct :=
  { title := "T", body_html := "D", product_type := "Rings", tags := "",
    status := "active", product_category_id := none,
    variants := [{ sku := "S", barcode := "B", price := "10.00",
                   compare_at_price := none, inventory_quantity := 0, weight := 0 }],
    images := [] }

/-- The 2-decimal rendering of a parsed decimal as an integer number of
cents (round half up): the claim's "2-decimal string renderings are equal"
is equality of these. -/
def centsRound (v : DecVal) : Int :=
  Int.fdiv (200 * v.num + (10 : Int) ^ v.scale) (2 * (10 : Int) ^ v.scale)

/-- C5 counterexample: prices "10.00" (incoming, parsePrice output) and
"10.004" (existing) render identically at 2 decimals, yet the comparator
reports a price change, because it compares the raw parsed values — so
price equality is NOT "exactly when the 2-decimal renderings are
equal". -/
theorem price_diff_despite_equal_rendering :
    Option.map centsRound (parseFloatD "10.00")
        = Option.map centsRound (parseFloatD "10.004")
      ∧ "price" ∈ doesProductNeedUpdate csvProd5 exProd5 := by
  constructor
  · decide
  · decide

/-- Closed instantiation of the C5 theorem: "10.00" vs "10.00" parse to
the same value, hence no price diff is reported for pure formatting. -/
theorem price_compared_as_parsed_value_witness :
    ¬("price" ∈ doesProductNeedUpdate csvProd2inv exProd2) := by
  have h := price_compared_as_parsed_value csvProd2inv exProd2 csvVar2inv exVar2 [] []
    rfl rfl ⟨1000, 2⟩ ⟨1000, 2⟩ (by decide) (by decide)
  intro hmem
  exact (h.mp hmem) rfl

/-- Incoming variant with no compare-at price (feed row without MSRP). -/
def csvVar10 : CsvVariant :=
  { sku := "SKU1", barcode := "B1", price := "10.00", compare_at_price := none,
    inventory_quantity := 3, weight := 5 }

/-- Incoming mapped product with no compare-at price. -/
def csvProd10 : CsvProduct :=
  { title := "Gold Ring", body_html := "<p>d</p>", product_type := "Rings",
    tags := "gold", status := "active", product_category_id := none,
    variants := [csvVar10], images := ["u1"] }

/-- C10: the compare-at-price check is guarded by the truthiness of the
incoming variant's compare_at_price, so when the incoming record has no
compare-at price (null), no compare_price change is ever reported — even
when the existing product has one — regardless of every other field. -/
theorem compare_price_needs_incoming_value
    (P : CsvProduct) (E : ExistingProduct) (cv : CsvVariant) (ev : ExistingVariant)
    (cvs : List CsvVariant) (evs : List ExistingVariant)
    (hPv : P.variants = cv :: cvs) (hEv : E.variants = ev :: evs)
    (hnone : cv.compare_at_price = none) :
    "compare_price" ∉ doesProductNeedUpdate P E := by
  have hcp : comparePriceChanged cv ev = false := by
    simp [comparePriceChanged, hnone]
  intro h
  simp only [doesProductNeedUpdate, hPv, hEv, List.mem_append] at h
  rcases h with
    ((((((h | h) | h) | h) | h) | h) | (((((h | h) | h) | h) | h) | h)) | h
  all_goals first
    | exact absurd (mem_ite_nil_imp h) (by decide)
    | (rw [hcp] at h; simp at h)

/-- Closed instantiation of the C10 theorem: incoming compare-at price
null, existing compare-at price 12.00 — no compare_price change. -/
theorem compare_price_needs_incoming_value_witness :
    "compare_price" ∉ doesProductNeedUpdate csvProd10 exProd2 :=
  compare_price_needs_incoming_value csvProd10 exProd2 csvVar10 exVar2 [] []
    rfl rfl rfl

/-! ## Transfer manager: latest-file selection (ftpClient.js: listFiles,
getLatestCSVFile) -/

/-- One entry of the remote directory listing: name, basic-ftp type code
(1 = regular file), and modification timestamp in milliseconds. -/
structure RemoteFile where
  name : String
  typ : Nat
  modifiedAt : Nat
deriving DecidableEq, Repr

/-- JavaScript String.prototype.toLowerCase restricted to ASCII, as a
structural map over the characters. -/
def jsToLower (s : String) : String := String.mk (s.data.map Char.toLower)

/-- JavaScript String.prototype.endsWith as a suffix test on the
character list. -/
def jsEndsWith (s suf : String) : Bool := List.isSuffixOf suf.data s.data

/-- The filter of listFiles (source lines 44-46): keep entries whose
lowercased name ends in ".csv" and whose type is 1 (regular file). -/
def filterCSVFiles (listing : List RemoteFile) : List RemoteFile :=
  listing.filter fun f => jsEndsWith (jsToLower f.name) ".csv" && f.typ == 1

/-- Stable insertion into a list sorted by descending modifiedAt.  The
inserted element precedes equal timestamps because it came earlier in the
original listing — exactly the order a stable sort under the comparator
(a, b) => dateB - dateA produces, and JavaScript Array.sort is stable. -/
def insertByModifiedDesc (x : RemoteFile) : List RemoteFile → List RemoteFile
  | [] => [x]
  | y :: ys =>
    if y.modifiedAt ≤ x.modifiedAt then x :: y :: ys
    else y :: insertByModifiedDesc x ys

/-- The sort of getLatestCSVFile (source lines 275-277): files ordered by
modification date, newest first, stable on ties. -/
def sortByModifiedDesc : List RemoteFile → List RemoteFile
  | [] => []
  | x :: xs => insertByModifiedDesc x (sortByModifiedDesc xs)

/-- getLatestCSVFile (source lines 266-287): filter to CSV files, throw
when none, otherwise take the first element of the descending sort (the
headD default is never used: the sort of a nonempty list is nonempty). -/
def getLatestCSVFile (listing : List RemoteFile) : Except String RemoteFile :=
  match filterCSVFiles listing with
  | [] => .error "No CSV files found on FTP server"
  | f :: fs => .ok ((sortByModifiedDesc (f :: fs)).headD f)

/-- The first file in listing order among those with the maximal
modification timestamp: the selection the stable sort actually makes. -/
def firstMaxByModified : List RemoteFile → Option RemoteFile
  | [] => none
  | x :: xs =>
    match firstMaxByModified xs with
    | none => some x
    | some m => if m.modifiedAt > x.modifiedAt then some m else some x

theorem insertByModifiedDesc_ne_nil (x : RemoteFile) (l : List RemoteFile) :
    insertByModifiedDesc x l ≠ [] := by
  cases l with
  | nil => simp [insertByModifiedDesc]
  | cons y ys =>
    simp only [insertByModifiedDesc]
    split <;> simp
theorem firstMax_ne_none (x : RemoteFile) (xs : List RemoteFile) :
    firstMaxByModified (x :: xs) ≠ none := by
  simp only [firstMaxByModified]
  cases firstMaxByModified xs with
  | none => simp
  | some m => by_cases h : m.modifiedAt > x.modifiedAt <;> simp [h]

theorem sort_head_firstMax : ∀ l : List RemoteFile,
    (sortByModifiedDesc l).head? = firstMaxByModified l := by
  intro l
  induction l with
  | nil => rfl
  | cons x xs ih =>
    cases hs : sortByModifiedDesc xs with
    | nil =>
      have hf : firstMaxByModified xs = none := by rw [← ih, hs]; rfl
      simp [sortByModifiedDesc, firstMaxByModified, hs, hf, insertByModifiedDesc]
    | cons y ys =>
      have hf : firstMaxByModified xs = some y := by rw [← ih, hs]; rfl
      by_cases hc : y.modifiedAt ≤ x.modifiedAt
      · have hgt : ¬(y.modifiedAt > x.modifiedAt) := by omega
        simp [sortByModifiedDesc, firstMaxByModified, hs, hf, insertByModifiedDesc, hc, hgt]
      · have hgt : y.modifiedAt > x.modifiedAt := by omega
        simp [sortByModifiedDesc, firstMaxByModified, hs, hf, insertByModifiedDesc, hc, hgt]

theorem firstMax_mem : ∀ (l : List RemoteFile) (m : RemoteFile),
    firstMaxByModified l = some m → m ∈ l := by
  intro l
  induction l with
  | nil => intro m h; simp [firstMaxByModified] at h
  | cons x xs ih =>
    intro m h
    cases hf : firstMaxByModified xs with
    | none =>
      simp [firstMaxByModified, hf] at h
      subst h
      exact List.mem_cons_self _ _
    | some g =>
      by_cases hc : g.modifiedAt > x.modifiedAt
      · simp [firstMaxByModified, hf, hc] at h
        subst h
        exact List.mem_cons_of_mem x (ih g hf)
      · simp [firstMaxByModified, hf, hc] at h
        subst h
        exact List.mem_cons_self _ _

theorem firstMax_ge : ∀ (l : List RemoteFile) (m : RemoteFile),
    firstMaxByModified l = some m → ∀ g ∈ l, g.modifiedAt ≤ m.modifiedAt := by
  intro l
  induction l with
  | nil => intro m _ g hg; simp at hg
  | cons x xs ih =>
    intro m h g hg
    cases hf : firstMaxByModified xs with
    | none =>
      simp [firstMaxByModified, hf] at h
      subst h
      rcases List.mem_cons.mp hg with rfl | hg'
      · exact le_refl _
      · cases xs with
        | nil => simp at hg'
        | cons a t => exact absurd hf (firstMax_ne_none a t)
    | some q =>
      by_cases hc : q.modifiedAt > x.modifiedAt
      · simp [firstMaxByModified, hf, hc] at h
        subst h
        rcases List.mem_cons.mp hg with rfl | hg'
        · omega
        · exact ih q hf g hg'
      · simp [firstMaxByModified, hf, hc] at h
        subst h
        rcases List.mem_cons.mp hg with rfl | hg'
        · exact le_refl _
        · have := ih q hf g hg'
          omega

/-- C6 (amended): over any remote listing, the latest-file selection
fails exactly when no listed entry is a .csv regular file, and otherwise
returns a .csv file with the most recent modification timestamp, ties
broken by earliest position in the remote listing (JavaScript's sort is
stable, so tied files keep listing order) — not by lexicographically
greatest name. -/
theorem latest_csv_selection (listing : List RemoteFile) :
    (filterCSVFiles listing = [] →
        getLatestCSVFile listing = .error "No CSV files found on FTP server")
      ∧ ∀ f, getLatestCSVFile listing = .ok f →
          firstMaxByModified (filterCSVFiles listing) = some f
            ∧ f ∈ filterCSVFiles listing
            ∧ ∀ g ∈ filterCSVFiles listing, g.modifiedAt ≤ f.modifiedAt := by
  constructor
  · intro hempty
    simp [getLatestCSVFile, hempty]
  · intro f hok
    have hfm : firstMaxByModified (filterCSVFiles listing) = some f := by
      unfold getLatestCSVFile at hok
      cases hfl : filterCSVFiles listing with
      | nil => rw [hfl] at hok; simp at hok
      | cons a t =>
        rw [hfl] at hok
        simp only [Except.ok.injEq] at hok
        rw [← hok, ← hfl]
        cases hs : sortByModifiedDesc (a :: t) with
        | nil =>
          exact absurd (by simpa [sortByModifiedDesc] using hs)
            (insertByModifiedDesc_ne_nil a (sortByModifiedDesc t))
        | cons g gs =>
          have := sort_head_firstMax (a :: t)
          rw [hs] at this
          simp only [List.head?_cons] at this
          rw [hfl, ← this]
          simp [hs]
    exact ⟨hfm, firstMax_mem _ f hfm, firstMax_ge _ f hfm⟩

/-- Decidable equality for selection results, so concrete runs can be
checked by evaluation. -/
instance {ε α : Type} [DecidableEq ε] [DecidableEq α] : DecidableEq (Except ε α) :=
  fun a b =>
    match a, b with
    | .ok x, .ok y =>
      if h : x = y then .isTrue (by rw [h]) else .isFalse (by simp [h])
    | .error e, .error f =>
      if h : e = f then .isTrue (by rw [h]) else .isFalse (by simp [h])
    | .ok _, .error _ => .isFalse (by simp)
    | .error _, .ok _ => .isFalse (by simp)

/-- Strict lexicographic order on character lists — the order JavaScript's
default string comparison uses, restricted to ASCII names. -/
def lexLt : List Char → List Char → Bool
  | [], [] => false
  | [], _ :: _ => true
  | _ :: _, [] => false
  | a :: as, b :: bs => if a < b then true else if b < a then false else lexLt as bs

/-- Remote listing entry "a.csv", a regular file modified at time 1000. -/
def tieA : RemoteFile := { name := "a.csv", typ := 1, modifiedAt := 1000 }

/-- Remote listing entry "b.csv", also modified at time 1000. -/
def tieB : RemoteFile := { name := "b.csv", typ := 1, modifiedAt := 1000 }

/-- C6 counterexample: with two .csv files carrying the same modification
timestamp, listed as [a.csv, b.csv], the selection returns a.csv — the
earlier-listed file — although b.csv has the lexicographically greatest
name, refuting the claimed tie-break. -/
theorem latest_csv_tie_not_lexicographic :
    getLatestCSVFile [tieA, tieB] = .ok tieA
      ∧ lexLt tieA.name.data tieB.name.data = true
      ∧ tieA.modifiedAt = tieB.modifiedAt := by
  refine ⟨by decide, by decide, rfl⟩

/-- Closed instantiation of the amended C6 theorem at the tied listing:
the selection is the first listing entry among the (tied) maxima. -/
theorem latest_csv_selection_witness :
    firstMaxByModified (filterCSVFiles [tieA, tieB]) = some tieA
      ∧ tieA ∈ filterCSVFiles [tieA, tieB]
      ∧ ∀ g ∈ filterCSVFiles [tieA, tieB], g.modifiedAt ≤ tieA.modifiedAt :=
  (latest_csv_selection [tieA, tieB]).2 tieA (by decide)

/-! ## Transfer manager: download with backup and restore (ftpClient.js:
downloadFile, source lines 56-141).  The local filesystem is modelled as
the contents of the two paths the function touches: the destination file
and its .backup sibling (none = absent).  The transfer itself is an oracle
parameter: it either completes with the streamed content or fails with an
error message, in which case a partial file may or may not have been left
at the destination. -/

/-- The two local paths downloadFile touches. -/
structure LocalFS where
  dest : Option String
  backup : Option String
deriving DecidableEq, Repr

/-- Outcome of the streaming transfer (downloadWithProgress): completion
with the streamed content, or a failure with the error message and
whatever partial content was written to the destination (none if the file
never appeared). -/
inductive DlRes
  | ok (content : String)
  | err (msg : String) (written : Option String)
deriving DecidableEq, Repr

/-- Absolute difference of two sizes. -/
def sizeDist (a b : Nat) : Nat := max a b - min a b

/-- The failure path of downloadFile (source lines 116-139): if a .backup
sibling exists, delete any partial destination file and rename the backup
back into place; otherwise delete the partial destination file.  Then the
error is surfaced. -/
def restoreOnFailure (fs : LocalFS) (msg : String) : Except String String × LocalFS :=
  match fs.backup with
  | some b => (.error msg, { dest := some b, backup := none })
  | none => (.error msg, { dest := none, backup := none })

/-- downloadFile (source lines 56-141): rename a pre-existing destination
file to its .backup sibling (overwriting a stale backup, as renameSync
does), stream the download, verify the file exists and — when the remote
size was discoverable (remoteSize > 0) — that the size difference is at
most 1024 bytes, delete the backup on success, and restore on any
failure.  Returns the downloaded content (standing for the local path) or
the surfaced error. -/
def downloadFile (pre : LocalFS) (remoteSize : Nat) (res : DlRes) :
    Except String String × LocalFS :=
  let fs1 : LocalFS :=
    match pre.dest with
    | some c => { dest := none, backup := some c }
    | none => pre
  match res with
  | .err msg written => restoreOnFailure { fs1 with dest := written } msg
  | .ok content =>
    let fs2 : LocalFS := { fs1 with dest := some content }
    if remoteSize > 0 && sizeDist content.length remoteSize > 1024 then
      restoreOnFailure fs2 "File size mismatch"
    else
      (.ok content, { fs2 with backup := none })

/-- C7: downloadFile's backup/restore protocol.  When a file already
exists at the destination and no stale backup is present: it is renamed
(not deleted) to the .backup sibling, so (1) on success the downloaded
content is in place and the backup is gone; (2) on any stream failure —
whatever partial content was left — the partial file is removed, the
backup is renamed back, the destination holds exactly the pre-download
content, no backup file remains, and the error is surfaced; (3) a
completed stream whose size differs from a known remote size by more than
the 1024-byte tolerance fails the same way, restoring the original
content and surfacing the size-mismatch error. -/
theorem download_backup_restore (orig : String) (remoteSize : Nat) :
    (∀ content,
        remoteSize > 0 → sizeDist content.length remoteSize ≤ 1024 →
        downloadFile ⟨some orig, none⟩ remoteSize (.ok content)
          = (.ok content, ⟨some content, none⟩))
      ∧ (∀ msg written,
          downloadFile ⟨some orig, none⟩ remoteSize (.err msg written)
            = (.error msg, ⟨some orig, none⟩))
      ∧ (∀ content,
          remoteSize > 0 → sizeDist content.length remoteSize > 1024 →
          downloadFile ⟨some orig, none⟩ remoteSize (.ok content)
            = (.error "File size mismatch", ⟨some orig, none⟩)) := by
  refine ⟨?_, ?_, ?_⟩
  · intro content hpos htol
    simp [downloadFile, restoreOnFailure]
    omega
  · intro msg written
    simp [downloadFile, restoreOnFailure]
  · intro content hpos hbig
    simp [downloadFile, restoreOnFailure]
    omega

/-- Closed instantiation of the C7 theorem with a pre-existing file
"old-feed" and a discoverable remote size of 4096 bytes: a stream that
completed after only 4 bytes trips the size tolerance and the original
content is restored; a clean stream failure with a partial file restores
it too; a stream whose size is within the 1024-byte tolerance succeeds
and drops the backup. -/
theorem download_backup_restore_witness :
    downloadFile ⟨some "old-feed", none⟩ 4096 (.ok "xxxx")
        = (.error "File size mismatch", ⟨some "old-feed", none⟩)
      ∧ downloadFile ⟨some "old-feed", none⟩ 4096 (.err "timeout" (some "part"))
        = (.error "timeout", ⟨some "old-feed", none⟩)
      ∧ downloadFile ⟨some "old-feed", none⟩ 4 (.ok "done")
          = (.ok "done", ⟨some "done", none⟩) :=
  ⟨(download_backup_restore "old-feed" 4096).2.2 "xxxx" (by decide) (by decide),
   (download_backup_restore "old-feed" 4096).2.1 "timeout" (some "part"),
   (download_backup_restore "old-feed" 4).1 "done" (by decide) (by decide)⟩

/-! ## Job orchestrator: re-entrancy guard (index.js: executeJob, source
lines 32-139).  executeJob checks this.isRunning and returns without
queueing when a run is active; otherwise it sets the flag — check and set
happen synchronously before the first await, so they are atomic on the
JavaScript event loop — runs the job, and the finally block clears the
flag whether the try body succeeded or the catch swallowed its error.
The guard is modelled as a transition system: a trigger event is the
entry check of executeJob, a finish event is its finally block (carrying
whether the run body succeeded, which the cleanup ignores). -/

/-- Events of the orchestrator: a scheduler trigger firing executeJob,
and the finally block of an active run completing (ok records whether the
run body succeeded — the cleanup is identical either way). -/
inductive JobEv
  | trigger
  | finish (ok : Bool)
deriving DecidableEq, Repr

/-- The cross-run shared state: the single isRunning boolean, plus a
ghost counter of how many executeJob bodies are active, used to state
mutual exclusion (it is not part of the program state). -/
structure JobState where
  isRunning : Bool
  active : Nat
deriving DecidableEq, Repr

/-- One step of the guard protocol: a trigger while isRunning is a no-op
(logged, not queued — the state is unchanged); a trigger while idle sets
the flag and enters the body; finish clears the flag unconditionally (the
finally block always runs) and leaves the body. -/
def jobStep (s : JobState) : JobEv → JobState
  | .trigger =>
    if s.isRunning then s
    else { isRunning := true, active := s.active + 1 }
  | .finish _ => { isRunning := false, active := s.active - 1 }

/-- The initial state: constructor sets isRunning = false, nothing
active. -/
def jobInit : JobState := { isRunning := false, active := 0 }

/-- The guard invariant: never more than one active run, and an idle flag
means no active run. -/
def jobInv (s : JobState) : Prop :=
  s.active ≤ 1 ∧ (s.isRunning = false → s.active = 0)

theorem jobStep_inv (s : JobState) (e : JobEv) (h : jobInv s) : jobInv (jobStep s e) := by
  rcases h with ⟨h1, h2⟩
  cases e with
  | trigger =>
    by_cases hr : s.isRunning = true
    · have hpair : jobInv s := ⟨h1, h2⟩
      simpa [jobStep, hr, jobInv] using hpair
    · have h0 : s.active = 0 := h2 (by simpa using hr)
      simp [jobStep, hr, jobInv, h0]
  | finish ok =>
    refine ⟨?_, fun _ => ?_⟩ <;> simp only [jobStep] <;> omega

theorem jobRun_inv (es : List JobEv) : jobInv (es.foldl jobStep jobInit) := by
  induction es using List.reverseRecOn with
  | nil => exact ⟨by simp [jobInit], fun _ => rfl⟩
  | append_singleton es e ih =>
    rw [List.foldl_append]
    exact jobStep_inv _ e ih

/-- C9: the re-entrancy guard gives mutual exclusion and always recovers.
(1) Along every event sequence from the initial state, at most one job
execution is active at any time.  (2) A trigger that fires while a run is
active changes nothing: it is a no-op, not queued.  (3) The finally block
clears the isRunning flag whether the run succeeded or failed.  (4) After
any finish, a later trigger enters a run again (the flag is clear, so the
trigger sets it and the active count rises). -/
theorem reentrancy_guard_protocol :
    (∀ es : List JobEv, (es.foldl jobStep jobInit).active ≤ 1)
      ∧ (∀ s : JobState, s.isRunning = true → jobStep s .trigger = s)
      ∧ (∀ (s : JobState) (ok : Bool), (jobStep s (.finish ok)).isRunning = false)
      ∧ (∀ (s : JobState) (ok : Bool),
          (jobStep (jobStep s (.finish ok)) .trigger).isRunning = true) := by
  refine ⟨fun es => (jobRun_inv es).1, fun s hr => by simp [jobStep, hr],
    fun s ok => rfl, fun s ok => by simp [jobStep]⟩

/-- Closed instantiation of the C9 theorem: a trigger, a concurrent
trigger (no-op), a failing finish, then a trigger that runs again. -/
theorem reentrancy_guard_protocol_witness :
    ([JobEv.trigger, JobEv.trigger, JobEv.finish false,
        JobEv.trigger].foldl jobStep jobInit).active ≤ 1
      ∧ jobStep { isRunning := true, active := 1 } .trigger
          = { isRunning := true, active := 1 }
      ∧ (jobStep { isRunning := true, active := 1 } (.finish false)).isRunning = false
      ∧ (jobStep (jobStep { isRunning := true, active := 1 } (.finish false))
          .trigger).isRunning = true :=
  ⟨reentrancy_guard_protocol.1 [JobEv.trigger, JobEv.trigger, JobEv.finish false,
      JobEv.trigger],
   reentrancy_guard_protocol.2.1 { isRunning := true, active := 1 } rfl,
   reentrancy_guard_protocol.2.2.1 { isRunning := true, active := 1 } false,
   reentrancy_guard_protocol.2.2.2 { isRunning := true, active := 1 } false⟩

/-! ## Handle generation (shopifyClient.js: generateHandle, source lines
1346-1356).  The pipeline works on the character list: lowercase, strip
characters outside [a-z0-9 whitespace -], collapse whitespace runs to a
single hyphen, collapse hyphen runs, strip one leading and one trailing
hyphen (the regex /^-|-$/g matches each at most once), truncate to 100
characters.  A falsy (empty) title returns "product".  The collapse steps
carry the previous-character state so the recursion is structural. -/

/-- JavaScript regex whitespace class \s restricted to ASCII: space, tab,
line feed, vertical tab, form feed, carriage return. -/
def isWS (c : Char) : Bool :=
  c.toNat = 32 || c.toNat = 9 || c.toNat = 10 || c.toNat = 11
    || c.toNat = 12 || c.toNat = 13

/-- Lowercase ASCII letter. -/
def isLowerAlphaC (c : Char) : Bool := 97 ≤ c.toNat && c.toNat ≤ 122

/-- The character class [a-z0-9\s-] kept by the strip step. -/
def isAllowed (c : Char) : Bool :=
  isLowerAlphaC c || isDigitC c || isWS c || c.toNat = 45

/-- Characters that can appear in a finished handle: lowercase letters,
digits, hyphen. -/
def isOut (c : Char) : Bool := isLowerAlphaC c || isDigitC c || c.toNat = 45

/-- Replace every maximal whitespace run by one hyphen; the flag records
whether the previous character was whitespace. -/
def collapseWSGo (prevWS : Bool) : List Char → List Char
  | [] => []
  | c :: cs =>
    if isWS c then
      if prevWS then collapseWSGo true cs else '-' :: collapseWSGo true cs
    else c :: collapseWSGo false cs

/-- The replace(/\s+/g, '-') step. -/
def collapseWS (l : List Char) : List Char := collapseWSGo false l

/-- Collapse every hyphen run to a single hyphen; the flag records whether
the previous character was a hyphen. -/
def collapseHyGo (prevHy : Bool) : List Char → List Char
  | [] => []
  | c :: cs =>
    if c = '-' then
      if prevHy then collapseHyGo true cs else '-' :: collapseHyGo true cs
    else c :: collapseHyGo false cs

/-- The hyphen-run collapse step (regex: one or more hyphens replaced by
a single hyphen, globally). -/
def collapseHy (l : List Char) : List Char := collapseHyGo false l

/-- Strip one leading hyphen (the ^- alternative of /^-|-$/g). -/
def dropLeadHy : List Char → List Char
  | [] => []
  | c :: cs => if c = '-' then cs else c :: cs

/-- Strip one trailing hyphen (the -$ alternative of /^-|-$/g). -/
def dropTailHy (l : List Char) : List Char :=
  if l.getLast? = some '-' then l.dropLast else l

/-- The full slug pipeline of generateHandle on a character list. -/
def jsSlug (l : List Char) : List Char :=
  (dropTailHy (dropLeadHy (collapseHy (collapseWS
    ((l.map Char.toLower).filter isAllowed))))).take 100

/-- generateHandle (source lines 1346-1356): 'product' for a falsy title,
otherwise the slug pipeline truncated to 100 characters. -/
def generateHandle (title : String) : String :=
  if title = "" then "product" else String.mk (jsSlug title.data)

/-! ### Character-class lemmas -/

theorem out_of_allowed_not_ws (c : Char) (h1 : isAllowed c = true)
    (h2 : isWS c = false) : isOut c = true := by
  simp only [isAllowed, isLowerAlphaC, isDigitC, isWS, isOut, Bool.or_eq_true,
    Bool.and_eq_true, Bool.or_eq_false_iff, decide_eq_true_eq,
    decide_eq_false_iff_not] at h1 h2 ⊢
  omega

theorem out_not_ws (c : Char) (h : isOut c = true) : isWS c = false := by
  simp only [isOut, isLowerAlphaC, isDigitC, isWS, Bool.or_eq_true,
    Bool.and_eq_true, Bool.or_eq_false_iff, decide_eq_true_eq,
    decide_eq_false_iff_not] at h ⊢
  omega

theorem out_allowed (c : Char) (h : isOut c = true) : isAllowed c = true := by
  simp only [isOut, isAllowed, Bool.or_eq_true] at h ⊢
  tauto

theorem hyphen_out : isOut '-' = true := by decide

theorem toLower_fix (c : Char) (h : isOut c = true) : c.toLower = c := by
  have hn : ¬(65 ≤ c.toNat ∧ c.toNat ≤ 90) := by
    simp only [isOut, isLowerAlphaC, isDigitC, Bool.or_eq_true, Bool.and_eq_true,
      decide_eq_true_eq] at h
    omega
  simp [Char.toLower, hn]

/-! ### Slug pipeline structure lemmas -/

theorem collapseWSGo_out : ∀ (l : List Char) (b : Bool),
    (∀ c ∈ l, isAllowed c = true) → ∀ c ∈ collapseWSGo b l, isOut c = true := by
  intro l
  induction l with
  | nil => intro b _ c hc; simp [collapseWSGo] at hc
  | cons a t ih =>
    intro b hall c hc
    have hta : ∀ c ∈ t, isAllowed c = true :=
      fun c hc => hall c (List.mem_cons_of_mem a hc)
    simp only [collapseWSGo] at hc
    by_cases hws : isWS a = true
    · rw [if_pos hws] at hc
      cases b with
      | true => exact ih true hta c hc
      | false =>
        rcases List.mem_cons.mp hc with rfl | hc'
        · exact hyphen_out
        · exact ih true hta c hc'
    · rw [if_neg hws] at hc
      rcases List.mem_cons.mp hc with rfl | hc'
      · exact out_of_allowed_not_ws c (hall c (List.mem_cons_self c t))
          (by simpa using hws)
      · exact ih false hta c hc'

theorem collapseHyGo_out : ∀ (l : List Char) (b : Bool),
    (∀ c ∈ l, isOut c = true) → ∀ c ∈ collapseHyGo b l, isOut c = true := by
  intro l
  induction l with
  | nil => intro b _ c hc; simp [collapseHyGo] at hc
  | cons a t ih =>
    intro b hall c hc
    have hta : ∀ c ∈ t, isOut c = true :=
      fun c hc => hall c (List.mem_cons_of_mem a hc)
    simp only [collapseHyGo] at hc
    by_cases hhy : a = '-'
    · rw [if_pos hhy] at hc
      cases b with
      | true => exact ih true hta c hc
      | false =>
        rcases List.mem_cons.mp hc with rfl | hc'
        · exact hyphen_out
        · exact ih true hta c hc'
    · rw [if_neg hhy] at hc
      rcases List.mem_cons.mp hc with rfl | hc'
      · exact hall c (List.mem_cons_self c t)
      · exact ih false hta c hc'

theorem dropLeadHy_subset (l : List Char) : ∀ c ∈ dropLeadHy l, c ∈ l := by
  cases l with
  | nil => intro c hc; simp [dropLeadHy] at hc
  | cons a t =>
    intro c hc
    simp only [dropLeadHy] at hc
    split at hc
    · exact List.mem_cons_of_mem a hc
    · exact hc

theorem dropTailHy_subset (l : List Char) : ∀ c ∈ dropTailHy l, c ∈ l := by
  intro c hc
  simp only [dropTailHy] at hc
  split at hc
  · exact List.dropLast_subset l hc
  · exact hc

/-- No two adjacent hyphens. -/
def noHH : List Char → Prop
  | [] => True
  | [_] => True
  | c :: d :: t => ¬(c = '-' ∧ d = '-') ∧ noHH (d :: t)

theorem noHH_tail (a : Char) (t : List Char) (h : noHH (a :: t)) : noHH t := by
  cases t with
  | nil => trivial
  | cons d t' => exact h.2

theorem noHH_pair (d : Char) (t : List Char) (h : noHH ('-' :: d :: t)) : d ≠ '-' := by
  intro hd
  exact h.1 ⟨rfl, hd⟩

theorem collapseHyGo_spec : ∀ (l : List Char) (b : Bool),
    noHH (collapseHyGo b l)
      ∧ (b = true → ∀ c, (collapseHyGo b l).head? = some c → c ≠ '-') := by
  intro l
  induction l with
  | nil => intro b; exact ⟨trivial, fun _ c hc => by simp [collapseHyGo] at hc⟩
  | cons a t ih =>
    intro b
    by_cases hhy : a = '-'
    · subst hhy
      cases b with
      | true =>
        have := ih true
        simpa [collapseHyGo] using this
      | false =>
        have ih1 := ih true
        refine ⟨?_, fun hfalse => by simp at hfalse⟩
        simp only [collapseHyGo, if_pos rfl, Bool.false_eq_true, if_false]
        cases hg : collapseHyGo true t with
        | nil => trivial
        | cons d t' =>
          have hd : d ≠ '-' := by
            apply ih1.2 rfl
            rw [hg]
            rfl
          constructor
          · intro hpair
            exact hd hpair.2
          · rw [← hg]
            exact ih1.1
    · have ih0 := ih false
      have hrw : collapseHyGo b (a :: t) = a :: collapseHyGo false t := by
        simp only [collapseHyGo, if_neg hhy]
      rw [hrw]
      refine ⟨?_, fun _ c hc => ?_⟩
      · cases hg : collapseHyGo false t with
        | nil => trivial
        | cons d t' =>
          constructor
          · intro hpair
            exact hhy hpair.1
          · rw [← hg]
            exact ih0.1
      · simp only [List.head?_cons, Option.some.injEq] at hc
        rw [← hc]
        exact hhy

theorem collapseWSGo_id : ∀ (l : List Char) (b : Bool),
    (∀ c ∈ l, isWS c = false) → collapseWSGo b l = l := by
  intro l
  induction l with
  | nil => intro b _; rfl
  | cons a t ih =>
    intro b hall
    have ha : isWS a = false := hall a (List.mem_cons_self a t)
    simp only [collapseWSGo, ha, Bool.false_eq_true, if_false]
    rw [ih false (fun c hc => hall c (List.mem_cons_of_mem a hc))]

theorem collapseHyGo_id : ∀ (l : List Char) (b : Bool), noHH l →
    (b = true → ∀ c, l.head? = some c → c ≠ '-') → collapseHyGo b l = l := by
  intro l
  induction l with
  | nil => intro b _ _; rfl
  | cons a t ih =>
    intro b hno hhead
    by_cases hhy : a = '-'
    · subst hhy
      cases b with
      | true => exact absurd rfl (hhead rfl '-' rfl)
      | false =>
        have hgo : collapseHyGo true t = t := by
          apply ih true (noHH_tail _ _ hno)
          intro _ c hc
          cases t with
          | nil => simp at hc
          | cons d t' =>
            simp only [List.head?_cons, Option.some.injEq] at hc
            rw [← hc]
            exact noHH_pair d t' hno
        simp [collapseHyGo, hgo]
    · simp only [collapseHyGo, if_neg hhy]
      rw [ih false (noHH_tail _ _ hno) (fun hf => by simp at hf)]

theorem noHH_dropLast : ∀ l : List Char, noHH l → noHH l.dropLast := by
  intro l
  induction l with
  | nil => intro _; trivial
  | cons a t ih =>
    intro h
    cases t with
    | nil => trivial
    | cons d t' =>
      have hrest : noHH ((d :: t').dropLast) := ih (noHH_tail _ _ h)
      show noHH (a :: (d :: t').dropLast)
      cases t' with
      | nil => trivial
      | cons e t'' =>
        exact ⟨h.1, hrest⟩

theorem noHH_take : ∀ (l : List Char) (n : Nat), noHH l → noHH (l.take n) := by
  intro l
  induction l with
  | nil => intro n _; simp; trivial
  | cons a t ih =>
    intro n h
    cases n with
    | zero => trivial
    | succ m =>
      simp only [List.take_succ_cons]
      cases t with
      | nil => simp; trivial
      | cons d t' =>
        cases m with
        | zero => trivial
        | succ k =>
          simp only [List.take_succ_cons]
          exact ⟨h.1, by
            have := ih (k + 1) (noHH_tail _ _ h)
            simpa [List.take_succ_cons] using this⟩

theorem noHH_dropLeadHy (l : List Char) (h : noHH l) : noHH (dropLeadHy l) := by
  cases l with
  | nil => trivial
  | cons a t =>
    simp only [dropLeadHy]
    split
    · exact noHH_tail a t h
    · exact h

theorem dropTailHy_noHH (l : List Char) (h : noHH l) : noHH (dropTailHy l) := by
  simp only [dropTailHy]
  split
  · exact noHH_dropLast l h
  · exact h

theorem dropLeadHy_head (l : List Char) (h : noHH l) :
    ∀ c, (dropLeadHy l).head? = some c → c ≠ '-' := by
  cases l with
  | nil => intro c hc; simp [dropLeadHy] at hc
  | cons a t =>
    intro c hc
    simp only [dropLeadHy] at hc
    by_cases hhy : a = '-'
    · rw [if_pos hhy] at hc
      subst hhy
      cases t with
      | nil => simp at hc
      | cons d t' =>
        simp only [List.head?_cons, Option.some.injEq] at hc
        rw [← hc]
        exact noHH_pair d t' h
    · rw [if_neg hhy] at hc
      simp only [List.head?_cons, Option.some.injEq] at hc
      rw [← hc]
      exact hhy

theorem head_dropTailHy (l : List Char) (c : Char)
    (hc : (dropTailHy l).head? = some c) : l.head? = some c := by
  simp only [dropTailHy] at hc
  split at hc
  · cases l with
    | nil => simp at hc
    | cons a t =>
      cases t with
      | nil => simp at hc
      | cons d t' =>
        simpa using hc
  · exact hc

theorem head_take (l : List Char) (n : Nat) (c : Char)
    (hc : (l.take n).head? = some c) : l.head? = some c := by
  cases n with
  | zero => simp at hc
  | succ m =>
    cases l with
    | nil => simp at hc
    | cons a t => simpa using hc

theorem map_toLower_id (l : List Char) (h : ∀ c ∈ l, isOut c = true) :
    l.map Char.toLower = l := by
  induction l with
  | nil => rfl
  | cons a t ih =>
    simp only [List.map_cons]
    rw [toLower_fix a (h a (List.mem_cons_self a t)),
      ih (fun c hc => h c (List.mem_cons_of_mem a hc))]

theorem filter_allowed_id (l : List Char) (h : ∀ c ∈ l, isOut c = true) :
    l.filter isAllowed = l := by
  induction l with
  | nil => rfl
  | cons a t ih =>
    rw [List.filter_cons, if_pos (by
      simpa using out_allowed a (h a (List.mem_cons_self a t)))]
    rw [ih (fun c hc => h c (List.mem_cons_of_mem a hc))]

theorem jsSlug_out (l : List Char) : ∀ c ∈ jsSlug l, isOut c = true := by
  intro c hc
  simp only [jsSlug, collapseHy, collapseWS] at hc
  have hc1 := List.take_subset 100 _ hc
  have hc2 := dropTailHy_subset _ c hc1
  have hc3 := dropLeadHy_subset _ c hc2
  have hws : ∀ d ∈ collapseWSGo false ((l.map Char.toLower).filter isAllowed),
      isOut d = true :=
    collapseWSGo_out _ false (fun d hd => List.of_mem_filter hd)
  exact collapseHyGo_out _ false hws c hc3

theorem jsSlug_noHH (l : List Char) : noHH (jsSlug l) :=
  noHH_take _ 100 (dropTailHy_noHH _ (noHH_dropLeadHy _ (collapseHyGo_spec _ false).1))

theorem jsSlug_head (l : List Char) : ∀ c, (jsSlug l).head? = some c → c ≠ '-' := by
  intro c hc
  simp only [jsSlug, collapseHy, collapseWS] at hc
  have hc1 := head_take _ 100 c hc
  have hc2 := head_dropTailHy _ c hc1
  exact dropLeadHy_head _ (collapseHyGo_spec _ false).1 c hc2

theorem jsSlug_len (l : List Char) : (jsSlug l).length ≤ 100 := by
  simp only [jsSlug]
  simp [List.length_take]

theorem jsSlug_fixed (y : List Char) (hout : ∀ c ∈ y, isOut c = true)
    (hno : noHH y) (hhead : ∀ c, y.head? = some c → c ≠ '-')
    (hlast : y.getLast? ≠ some '-') (hlen : y.length ≤ 100) : jsSlug y = y := by
  have h1 : y.map Char.toLower = y := map_toLower_id y hout
  have h2 : y.filter isAllowed = y := filter_allowed_id y hout
  have h3 : collapseWS y = y :=
    collapseWSGo_id y false (fun c hc => out_not_ws c (hout c hc))
  have h4 : collapseHy y = y :=
    collapseHyGo_id y false hno (fun hf => by simp at hf)
  have h5 : dropLeadHy y = y := by
    cases y with
    | nil => rfl
    | cons a t =>
      simp only [dropLeadHy]
      rw [if_neg (hhead a rfl)]
  have h6 : dropTailHy y = y := by
    simp only [dropTailHy]
    rw [if_neg hlast]
  have h7 : y.take 100 = y := List.take_of_length_le hlen
  simp only [jsSlug]
  rw [h1, h2, h3, h4, h5, h6, h7]

/-- C8 (amended): generateHandle is idempotent on every input whose handle
is non-empty and does not end in a hyphen: slug(slug(x)) = slug(x) for all
such x.  The two exceptions the code forces: a title with no kept
characters slugs to "", and re-slugging "" yields the fallback "product";
and the 100-character truncation can leave a trailing hyphen, which a
second pass would trim. -/
theorem generateHandle_idempotent_on_nonempty (s : String)
    (h1 : generateHandle s ≠ "")
    (h2 : (generateHandle s).data.getLast? ≠ some '-') :
    generateHandle (generateHandle s) = generateHandle s := by
  by_cases hs : s = ""
  · subst hs
    decide
  · have hgen : generateHandle s = String.mk (jsSlug s.data) := by
      simp [generateHandle, hs]
    have hlast : (jsSlug s.data).getLast? ≠ some '-' := by
      rw [hgen] at h2
      exact h2
    have hfix : jsSlug (jsSlug s.data) = jsSlug s.data :=
      jsSlug_fixed _ (jsSlug_out s.data) (jsSlug_noHH s.data) (jsSlug_head s.data)
        hlast (jsSlug_len s.data)
    have hne : String.mk (jsSlug s.data) ≠ "" := by
      rw [← hgen]
      exact h1
    rw [hgen]
    simp only [generateHandle]
    rw [if_neg hne]
    show String.mk (jsSlug (jsSlug s.data)) = String.mk (jsSlug s.data)
    rw [hfix]

/-- C8 counterexample: idempotence fails on "!!!" — every character is
stripped, so the handle is the empty string, and re-slugging the empty
string takes the falsy branch and returns "product". -/
theorem generateHandle_not_idempotent :
    generateHandle (generateHandle "!!!") ≠ generateHandle "!!!"
      ∧ generateHandle "!!!" = ""
      ∧ generateHandle (generateHandle "!!!") = "product" :=
  ⟨by decide, by decide, by decide⟩

/-- Closed instantiation of the amended C8 theorem at "Gold Ring 14K!"
(handle "gold-ring-14k": non-empty, no trailing hyphen). -/
theorem generateHandle_idempotent_on_nonempty_witness :
    generateHandle "Gold Ring 14K!" ≠ ""
      ∧ (generateHandle "Gold Ring 14K!").data.getLast? ≠ some '-'
      ∧ generateHandle (generateHandle "Gold Ring 14K!")
          = generateHandle "Gold Ring 14K!" :=
  ⟨by decide, by decide,
   generateHandle_idempotent_on_nonempty "Gold Ring 14K!" (by decide) (by decide)⟩
